import Mathlib

/-!
Shallow embedding of the lyrio backend core under verification:
`user.service.ts` (profile mutation, user metadata, batched lookup) and
`problem.controller.ts` (permission-gated problem operations), together with
the declared shape of `get-problem-detail-response.dto.ts`.

External collaborators (TypeORM repositories, `auth.service`,
`problem.service`, `group.service`) are not part of the visible source; they
are modelled as explicit environment records of oracles, and every call the
embedded code makes to them is recorded in an event trace so that
call-ordering properties can be stated.
-/

set_option autoImplicit false

/-- Locale tags (the `Locale` enum in the source) are modelled as strings;
the name `Locale` itself is taken by the ambient library. -/
abbrev LocaleTag := String

/-- `UserEntity`: the user row as used by `user.service.ts`. -/
structure UserEntity where
  id : Nat
  username : String
  email : String
  publicEmail : Bool
  bio : String
  sexIsFamale : Bool
  organization : String
  location : String
  isAdmin : Bool
  acceptedProblemCount : Nat
  submissionCount : Nat
  rating : Int
  registrationTime : Nat
  deriving DecidableEq

/-- `UserPrivilegeType` from `user-privilege.service.ts` (not under `src/`);
only `MANAGE_USER` is referenced by the embedded code. -/
inductive UserPrivilegeType where
  | MANAGE_USER
  deriving DecidableEq

/-- `UserMetaDto`: the result shape of `getUserMeta`.  The `email` field is
`Option`al because the source assigns `null` when the email is hidden. -/
structure UserMetaDto where
  id : Nat
  username : String
  email : Option String
  gravatarEmailHash : String
  bio : String
  sexIsFamale : Bool
  organization : String
  location : String
  isAdmin : Bool
  acceptedProblemCount : Nat
  submissionCount : Nat
  rating : Int
  registrationTime : Nat
  deriving DecidableEq

/-- `getUserMeta(user, currentUser)` from `user.service.ts` lines 49-73.
`md5` stands for the external `crypto` md5 digest and `userHasPrivilege` for
`UserPrivilegeService.userHasPrivilege`; both are parameters because their
implementations are outside the embedded source.  The hash is computed from
`user.email.trim().toLowerCase()` before the visibility condition is
evaluated, exactly as in the source. -/
def getUserMeta (md5 : String → String)
    (userHasPrivilege : UserEntity → UserPrivilegeType → Bool)
    (user : UserEntity) (currentUser : Option UserEntity) : UserMetaDto :=
  let hash := md5 (user.email.trim.toLower)
  { id := user.id
    username := user.username
    email :=
      if user.publicEmail ||
          (match currentUser with
           | some cu => cu.id == user.id || userHasPrivilege cu .MANAGE_USER
           | none => false)
      then some user.email else none
    gravatarEmailHash := hash
    bio := user.bio
    sexIsFamale := user.sexIsFamale
    organization := user.organization
    location := user.location
    isAdmin := user.isAdmin
    acceptedProblemCount := user.acceptedProblemCount
    submissionCount := user.submissionCount
    rating := user.rating
    registrationTime := user.registrationTime }

/-- `Array.from(new Set(userIds))`: deduplicate, keeping the first occurrence
of each id (JavaScript `Set` preserves insertion order). -/
def dedupFirst : List Nat → List Nat
  | [] => []
  | x :: xs => x :: dedupFirst (xs.filter (fun y => y ≠ x))
termination_by l => l.length
decreasing_by
  simp only [List.length_cons]
  exact Nat.lt_succ_of_le (List.length_filter_le _ _)

/-- `userRepository.findByIds(uniqueIds)`: the records of the store whose id
is among the requested ids (returned here in store order; the theorems assume
only that store ids are pairwise distinct, which the uniqueness invariant of
the store guarantees). -/
def findByIds (db : List UserEntity) (ids : List Nat) : List UserEntity :=
  db.filter (fun u => ids.contains u.id)

/-- `Object.fromEntries(records.map(record => [record.id, record]))[id]`:
JavaScript object construction lets a later entry overwrite an earlier one
with the same key, so lookup finds the last matching record. -/
def jsMapGet (records : List UserEntity) (id : Nat) : Option UserEntity :=
  records.reverse.find? (fun u => u.id == id)

/-- `findUsersByExistingIds(userIds)` from `user.service.ts` lines 31-37,
with the repository modelled as the list `db` of stored users. -/
def findUsersByExistingIds (db : List UserEntity) (userIds : List Nat) :
    List (Option UserEntity) :=
  if userIds.length = 0 then []
  else
    let uniqueIds := dedupFirst userIds
    let records := findByIds db uniqueIds
    userIds.map (fun userId => jsMapGet records userId)

/-- `UpdateUserProfileResponseError` from `user/dto` (values used by
`updateUserProfile`). -/
inductive UpdateUserProfileResponseError where
  | DUPLICATE_USERNAME
  | DUPLICATE_EMAIL
  deriving DecidableEq

/-- How a call to `updateUserProfile` terminates: `ok` is the `return null`
path, `err e` is a `return` of a duplicate-diagnosis error, and `rethrow` is
the `throw e` that re-raises the original store failure. -/
inductive UpdateOutcome where
  | ok
  | err (e : UpdateUserProfileResponseError)
  | rethrow
  deriving DecidableEq

/-- The persisted state touched by `updateUserProfile`: the user row and the
credential managed by `auth.service` (`changePassword`). -/
structure PersistedUserState where
  user : UserEntity
  password : String
  deriving DecidableEq

/-- The `information` argument of `updateUserProfile`. -/
structure UserInformation where
  bio : String
  sexIsFamale : Bool
  organization : String
  location : String
  deriving DecidableEq

/-- Outcomes of the external collaborators `updateUserProfile` calls:
whether the store write succeeds (`saveOk`), whether the credential rotation
succeeds (`changePasswordOk`), and the post-hoc availability oracles
(`checkUsernameAvailability` / `checkEmailAvailability`, lines 79-93 of
`user.service.ts`, both `count == 0` queries). -/
structure UpdateProfileEnv where
  saveOk : Bool
  changePasswordOk : Bool
  usernameAvailable : String → Bool
  emailAvailable : String → Bool

/-- Calls `updateUserProfile` makes to its collaborators, in order. -/
inductive UserServiceEvent where
  | repositorySave
  | transactionBegin (isolationLevel : String)
  | changePassword
  | transactionalSave
  | checkUsernameAvailability (username : String)
  | checkEmailAvailability (email : String)
  deriving DecidableEq

/-- Result of a call to `updateUserProfile`: how it returned, the persisted
state afterwards, the (possibly mutated) in-memory entity that was passed in,
and the trace of collaborator calls. -/
structure UpdateProfileResult where
  outcome : UpdateOutcome
  persisted : PersistedUserState
  entity : UserEntity
  trace : List UserServiceEvent
  deriving DecidableEq

/-- Lines 112-123 of `user.service.ts`: mutate the entity in memory.
`user.username` / `user.email` are overwritten only when the corresponding
argument is non-null; `publicEmail` and the four information fields are
overwritten unconditionally. -/
def applyProfileFields (user : UserEntity) (username email : Option String)
    (publicEmail : Bool) (information : UserInformation) : UserEntity :=
  let user := match username with
    | some u => { user with username := u }
    | none => user
  let user := match email with
    | some e => { user with email := e }
    | none => user
  { user with
    publicEmail := publicEmail
    bio := information.bio
    sexIsFamale := information.sexIsFamale
    organization := information.organization
    location := information.location }

/-- Lines 131-139 of `user.service.ts`: the `catch` block.  If a username
change was attempted, query its availability first; if taken, return
`DUPLICATE_USERNAME` (the email is never queried).  Otherwise, if an email
change was attempted and it is taken, return `DUPLICATE_EMAIL`.  Otherwise
re-raise the original failure.  Returns the outcome together with the
availability-check events issued, in order. -/
def duplicateDiagnosis (env : UpdateProfileEnv) (username email : Option String) :
    UpdateOutcome × List UserServiceEvent :=
  match username with
  | some u =>
    if ¬ env.usernameAvailable u then
      (.err .DUPLICATE_USERNAME, [.checkUsernameAvailability u])
    else
      match email with
      | some e =>
        if ¬ env.emailAvailable e then
          (.err .DUPLICATE_EMAIL,
           [.checkUsernameAvailability u, .checkEmailAvailability e])
        else
          (.rethrow, [.checkUsernameAvailability u, .checkEmailAvailability e])
      | none => (.rethrow, [.checkUsernameAvailability u])
  | none =>
    match email with
    | some e =>
      if ¬ env.emailAvailable e then
        (.err .DUPLICATE_EMAIL, [.checkEmailAvailability e])
      else
        (.rethrow, [.checkEmailAvailability e])
    | none => (.rethrow, [])

/-- The isolation level string passed to `connection.transaction` on line 127
of `user.service.ts`. -/
def updateProfileIsolationLevel : String := "READ COMMITTED"

/-- `updateUserProfile` from `user.service.ts` lines 99-142.

The entity is mutated in memory first (`applyProfileFields`).  If `password`
is null the entity is saved directly; otherwise `changePassword` and the
entity save run inside one `READ COMMITTED` transaction, modelled as atomic:
the persisted state changes only if both steps succeed (`changePassword`
itself is `auth.service` code outside `src/`; per the spec, `rotateCredential`
is an all-or-nothing external credential rotation, and rotation failure
aborts the whole unit).  On any write failure the `catch` block runs the
post-hoc duplicate diagnosis; the persisted state is unchanged but the
in-memory entity keeps the values written into it before the attempt. -/
def updateUserProfile (store : PersistedUserState) (env : UpdateProfileEnv)
    (user : UserEntity) (username email : Option String) (publicEmail : Bool)
    (password : Option String) (information : UserInformation) :
    UpdateProfileResult :=
  let user := applyProfileFields user username email publicEmail information
  match password with
  | none =>
    if env.saveOk then
      { outcome := .ok
        persisted := { store with user := user }
        entity := user
        trace := [.repositorySave] }
    else
      let (o, t) := duplicateDiagnosis env username email
      { outcome := o
        persisted := store
        entity := user
        trace := .repositorySave :: t }
  | some pw =>
    let attempted : List UserServiceEvent :=
      if env.changePasswordOk then
        [.transactionBegin updateProfileIsolationLevel, .changePassword, .transactionalSave]
      else
        [.transactionBegin updateProfileIsolationLevel, .changePassword]
    if env.changePasswordOk && env.saveOk then
      { outcome := .ok
        persisted := { user := user, password := pw }
        entity := user
        trace := attempted }
    else
      let (o, t) := duplicateDiagnosis env username email
      { outcome := o
        persisted := store
        entity := user
        trace := attempted ++ t }

/-- `ProblemEntity` as used by the controller (fields read on lines
164-171). -/
structure ProblemEntity where
  id : Nat
  displayId : Nat
  type : String
  isPublic : Bool
  ownerId : Nat
  locales : List LocaleTag
  deriving DecidableEq

/-- `GroupEntity` (not under `src/`; the controller only passes resolved
groups through, so only the id matters here). -/
structure GroupEntity where
  id : Nat
  deriving DecidableEq

/-- `ProblemPermissionType` imported from `problem.service.ts`. -/
inductive ProblemPermissionType where
  | CREATE
  | READ
  | WRITE
  | CONTROL
  deriving DecidableEq

/-- `ProblemContentSectionType` from `problem-content.interface.ts` (not
under `src/`; the section DTO distinguishes text and sample sections). -/
inductive ProblemContentSectionType where
  | TEXT
  | SAMPLE
  deriving DecidableEq

/-- `ProblemContentSectionDto` from the source: a section title, a type, an
optional sample id (empty for text sections) and optional text. -/
structure ProblemContentSectionDto where
  sectionTitle : String
  type : ProblemContentSectionType
  sampleId : Option Nat
  text : Option String
  deriving DecidableEq

/-- `ProblemSampleDataMemberDto` (not under `src/`): one sample's input and
output payloads. -/
structure ProblemSampleDataMemberDto where
  inputData : String
  outputData : String
  deriving DecidableEq

/-- `ProblemJudgeInfo` (not under `src/`): an opaque judge-configuration
payload. -/
structure ProblemJudgeInfo where
  payload : String
  deriving DecidableEq

/-- `ProblemMetaDto` as populated on lines 164-171 of the controller. -/
structure ProblemMetaDto where
  id : Nat
  displayId : Nat
  type : String
  isPublic : Bool
  ownerId : Nat
  locales : List LocaleTag
  deriving DecidableEq

/-- `UpdateProblemStatementResponseError`. -/
inductive UpdateProblemStatementResponseError where
  | NO_SUCH_PROBLEM
  | PERMISSION_DENIED
  | FAILED
  deriving DecidableEq

/-- `GetProblemDetailResponseError` from
`get-problem-detail-response.dto.ts`. -/
inductive GetProblemDetailResponseError where
  | PERMISSION_DENIED
  | NO_SUCH_PROBLEM
  deriving DecidableEq

/-- `SetProblemPermissionsResponseError` (values used by the controller). -/
inductive SetProblemPermissionsResponseError where
  | NO_SUCH_PROBLEM
  | PERMISSION_DENIED
  | NO_SUCH_USER
  | NO_SUCH_GROUP
  deriving DecidableEq

/-- `UpdateProblemStatementRequestDto`: the problem id plus the statement
payload (whose structure the controller never inspects). -/
structure UpdateProblemStatementRequestDto where
  problemId : Nat
  statementPayload : String
  deriving DecidableEq

/-- `GetProblemDetailRequestDto`: `id` and `displayId` are optional query
strings in the source (tested for truthiness and `parseInt`ed); they are
modelled as optional numbers, plus the requested locale. -/
structure GetProblemDetailRequestDto where
  id : Option Nat
  displayId : Option Nat
  locale : LocaleTag
  deriving DecidableEq

/-- `SetProblemPermissionsRequestDto`: target problem, permission level being
replaced, and the user / group principal id lists. -/
structure SetProblemPermissionsRequestDto where
  problemId : Nat
  permissionType : ProblemPermissionType
  userIds : List Nat
  groupIds : List Nat
  deriving DecidableEq

/-- Calls the problem controller makes to its collaborator services, in
order.  `userHasPermission` records the level and the problem argument
(`none` when the resource argument would be absent); `setProblemPermissions`
is the persisting grant replacement of `problem.service`. -/
inductive ProblemControllerEvent where
  | findProblemById (id : Nat)
  | findProblemByDisplayId (displayId : Nat)
  | userHasPermission (level : ProblemPermissionType) (problem : Option ProblemEntity)
  | findUserById (id : Nat)
  | findGroupById (id : Nat)
  | updateProblemStatement (problemId : Nat)
  | getProblemLocalizedTitle (problemId : Nat) (locale : LocaleTag)
  | getProblemLocalizedContent (problemId : Nat) (locale : LocaleTag)
  | getProblemSamples (problemId : Nat)
  | getProblemJudgeInfo (problemId : Nat)
  | setProblemPermissions (problem : ProblemEntity)
      (permissionType : ProblemPermissionType)
      (users : List UserEntity) (groups : List GroupEntity)
  deriving DecidableEq

/-- Is this event the persisting `problemService.setProblemPermissions`
call? -/
def ProblemControllerEvent.isSetProblemPermissions : ProblemControllerEvent → Bool
  | .setProblemPermissions _ _ _ _ => true
  | _ => false

/-- Is this event a `userService.findUserById` call? -/
def ProblemControllerEvent.isFindUserById : ProblemControllerEvent → Bool
  | .findUserById _ => true
  | _ => false

/-- Is this event a `groupService.findGroupById` call? -/
def ProblemControllerEvent.isFindGroupById : ProblemControllerEvent → Bool
  | .findGroupById _ => true
  | _ => false

/-- The collaborator services of `ProblemController` (`problem.service`,
`user.service` lookup, `group.service`), modelled as oracles.  The services'
own code is not under `src/`. -/
structure ProblemControllerEnv where
  findProblemById : Nat → Option ProblemEntity
  findProblemByDisplayId : Nat → Option ProblemEntity
  userHasPermission :
    Option UserEntity → ProblemPermissionType → Option ProblemEntity → Bool
  findUserById : Nat → Option UserEntity
  findGroupById : Nat → Option GroupEntity
  updateProblemStatementOk : ProblemEntity → UpdateProblemStatementRequestDto → Bool
  getProblemLocalizedTitle : ProblemEntity → LocaleTag → LocaleTag × String
  getProblemLocalizedContent :
    ProblemEntity → LocaleTag → LocaleTag × List ProblemContentSectionDto
  getProblemSamples : ProblemEntity → List ProblemSampleDataMemberDto
  getProblemJudgeInfo : ProblemEntity → ProblemJudgeInfo

/-- `UpdateProblemStatementResponseDto`: empty object on success, otherwise
an error. -/
structure UpdateProblemStatementResponseDto where
  error : Option UpdateProblemStatementResponseError
  deriving DecidableEq

/-- `updateStatement` from `problem.controller.ts` lines 74-108, returning
the response together with the trace of service calls. -/
def updateStatement (env : ProblemControllerEnv) (currentUser : Option UserEntity)
    (request : UpdateProblemStatementRequestDto) :
    UpdateProblemStatementResponseDto × List ProblemControllerEvent :=
  let tFind : List ProblemControllerEvent := [.findProblemById request.problemId]
  match env.findProblemById request.problemId with
  | none => ({ error := some .NO_SUCH_PROBLEM }, tFind)
  | some problem =>
    let tPerm := tFind ++ [.userHasPermission .WRITE (some problem)]
    if env.userHasPermission currentUser .WRITE (some problem) then
      let tUpd := tPerm ++ [.updateProblemStatement problem.id]
      if env.updateProblemStatementOk problem request then
        ({ error := none }, tUpd)
      else
        ({ error := some .FAILED }, tUpd)
    else
      ({ error := some .PERMISSION_DENIED }, tPerm)

/-- The object the controller's `getProblemDetail` actually returns (lines
130-133, 142-144 and 163-178): note it carries `titleLocale` and
`contentLocale`, one chosen locale per resolution. -/
structure GetProblemDetailControllerResult where
  error : Option GetProblemDetailResponseError
  meta : Option ProblemMetaDto
  title : Option String
  titleLocale : Option LocaleTag
  samples : Option (List ProblemSampleDataMemberDto)
  contentSections : Option (List ProblemContentSectionDto)
  contentLocale : Option LocaleTag
  judgeInfo : Option ProblemJudgeInfo
  deriving DecidableEq

/-- An error-only `getProblemDetail` result. -/
def getProblemDetailError (e : GetProblemDetailResponseError) :
    GetProblemDetailControllerResult :=
  { error := some e
    meta := none
    title := none
    titleLocale := none
    samples := none
    contentSections := none
    contentLocale := none
    judgeInfo := none }

/-- `getProblemDetail` from `problem.controller.ts` lines 118-179, returning
the response object together with the trace of service calls.  The problem is
located by `id` if present, else by `displayId` if present (lines 122-128);
title and content are then resolved by two separate service calls, each
receiving the same `request.locale`. -/
def getProblemDetail (env : ProblemControllerEnv) (currentUser : Option UserEntity)
    (request : GetProblemDetailRequestDto) :
    GetProblemDetailControllerResult × List ProblemControllerEvent :=
  let lookup : Option ProblemEntity × List ProblemControllerEvent :=
    match request.id with
    | some i => (env.findProblemById i, [.findProblemById i])
    | none =>
      match request.displayId with
      | some d => (env.findProblemByDisplayId d, [.findProblemByDisplayId d])
      | none => (none, [])
  match lookup with
  | (none, tFind) => (getProblemDetailError .NO_SUCH_PROBLEM, tFind)
  | (some problem, tFind) =>
    let tPerm := tFind ++ [.userHasPermission .READ (some problem)]
    if env.userHasPermission currentUser .READ (some problem) then
      let (titleLocale, title) := env.getProblemLocalizedTitle problem request.locale
      let (contentLocale, contentSections) :=
        env.getProblemLocalizedContent problem request.locale
      let samples := env.getProblemSamples problem
      let judgeInfo := env.getProblemJudgeInfo problem
      ({ error := none
         meta := some
           { id := problem.id
             displayId := problem.displayId
             type := problem.type
             isPublic := problem.isPublic
             ownerId := problem.ownerId
             locales := problem.locales }
         title := some title
         titleLocale := some titleLocale
         samples := some samples
         contentSections := some contentSections
         contentLocale := some contentLocale
         judgeInfo := some judgeInfo },
       tPerm ++
         [.getProblemLocalizedTitle problem.id request.locale,
          .getProblemLocalizedContent problem.id request.locale,
          .getProblemSamples problem.id,
          .getProblemJudgeInfo problem.id])
    else
      (getProblemDetailError .PERMISSION_DENIED, tPerm)

/-- The property names a `getProblemDetail` response can mention, used to
compare the controller's returned object with the declared response DTO. -/
inductive ResponseFieldName where
  | error
  | meta
  | title
  | resultLocale
  | titleLocale
  | samples
  | contentSections
  | contentLocale
  | judgeInfo
  deriving DecidableEq

/-- The fields declared by `GetProblemDetailResponseDto` in
`get-problem-detail-response.dto.ts` lines 15-36, in declared order: a single
`resultLocale` field and no `titleLocale` / `contentLocale`. -/
def getProblemDetailResponseDtoFields : List ResponseFieldName :=
  [.error, .meta, .title, .resultLocale, .samples, .contentSections, .judgeInfo]

/-- The properties of the object the controller returns on the success path
of `getProblemDetail` (lines 163-178), in source order. -/
def getProblemDetailControllerReturnFields : List ResponseFieldName :=
  [.meta, .title, .titleLocale, .samples, .contentSections, .contentLocale, .judgeInfo]

/-- `SetProblemPermissionsResponseDto`: an optional error plus the offending
object id. -/
structure SetProblemPermissionsResponseDto where
  error : Option SetProblemPermissionsResponseError
  errorObjectId : Option Nat
  deriving DecidableEq

/-- The per-principal resolution loops of `setProblemPermissions` (lines
211-233): look up each id in order; on the first id that resolves to nothing,
stop with that id; otherwise collect the resolved entities.  Returns the
result together with the lookup events issued, in order. -/
def lookupEach {α : Type} (find : Nat → Option α)
    (mk : Nat → ProblemControllerEvent) :
    List Nat → Except Nat (List α) × List ProblemControllerEvent
  | [] => (.ok [], [])
  | id :: rest =>
    match find id with
    | none => (.error id, [mk id])
    | some x =>
      let (r, t) := lookupEach find mk rest
      (r.map (fun xs => x :: xs), mk id :: t)

/-- `setProblemPermissions` from `problem.controller.ts` lines 187-243,
returning the response together with the trace of service calls.  The problem
is located first; then CONTROL permission is checked; then every user id is
resolved, then every group id; only if all resolve does the controller invoke
`problemService.setProblemPermissions`. -/
def setProblemPermissions (env : ProblemControllerEnv)
    (currentUser : Option UserEntity) (request : SetProblemPermissionsRequestDto) :
    SetProblemPermissionsResponseDto × List ProblemControllerEvent :=
  let tFind : List ProblemControllerEvent := [.findProblemById request.problemId]
  match env.findProblemById request.problemId with
  | none =>
    ({ error := some .NO_SUCH_PROBLEM, errorObjectId := some request.problemId }, tFind)
  | some problem =>
    let tPerm := tFind ++ [.userHasPermission .CONTROL (some problem)]
    if env.userHasPermission currentUser .CONTROL (some problem) then
      let (ru, tUsers) := lookupEach env.findUserById .findUserById request.userIds
      match ru with
      | .error badId =>
        ({ error := some .NO_SUCH_USER, errorObjectId := some badId }, tPerm ++ tUsers)
      | .ok users =>
        let (rg, tGroups) := lookupEach env.findGroupById .findGroupById request.groupIds
        match rg with
        | .error badId =>
          ({ error := some .NO_SUCH_GROUP, errorObjectId := some badId },
           tPerm ++ tUsers ++ tGroups)
        | .ok groups =>
          ({ error := none, errorObjectId := none },
           tPerm ++ tUsers ++ tGroups ++
             [.setProblemPermissions problem request.permissionType users groups])
    else
      ({ error := some .PERMISSION_DENIED, errorObjectId := none }, tPerm)

/-! ## Concrete fixtures used by the witness theorems -/

/-- A concrete user row. -/
def sampleUser : UserEntity :=
  { id := 1, username := "alice", email := "alice@example.com", publicEmail := false,
    bio := "", sexIsFamale := false, organization := "", location := "",
    isAdmin := false, acceptedProblemCount := 0, submissionCount := 0,
    rating := 1500, registrationTime := 0 }

/-- A concrete persisted state holding `sampleUser`. -/
def sampleStore : PersistedUserState :=
  { user := sampleUser, password := "old-credential" }

/-- A concrete `information` argument. -/
def sampleInformation : UserInformation :=
  { bio := "new bio", sexIsFamale := true, organization := "org", location := "loc" }

/-- Collaborator outcomes where the store write fails and the attempted
username turns out to be taken. -/
def c1Env : UpdateProfileEnv :=
  { saveOk := false, changePasswordOk := true,
    usernameAvailable := fun _ => false, emailAvailable := fun _ => true }

/-- Collaborator outcomes where the credential rotation fails. -/
def c2Env : UpdateProfileEnv :=
  { saveOk := true, changePasswordOk := false,
    usernameAvailable := fun _ => true, emailAvailable := fun _ => true }

/-- Collaborator outcomes where every step succeeds. -/
def okEnv : UpdateProfileEnv :=
  { saveOk := true, changePasswordOk := true,
    usernameAvailable := fun _ => true, emailAvailable := fun _ => true }

/-- A concrete problem row. -/
def sampleProblem : ProblemEntity :=
  { id := 1, displayId := 10, type := "TRADITIONAL", isPublic := false,
    ownerId := 1, locales := ["en", "ja"] }

/-- Controller collaborators where problem 1 exists, user 1 exists, user 2
does not, no group exists, and the current user holds every permission. -/
def c3Env : ProblemControllerEnv :=
  { findProblemById := fun i => if i = 1 then some sampleProblem else none
    findProblemByDisplayId := fun _ => none
    userHasPermission := fun _ _ _ => true
    findUserById := fun i => if i = 1 then some sampleUser else none
    findGroupById := fun _ => none
    updateProblemStatementOk := fun _ _ => true
    getProblemLocalizedTitle := fun _ _ => ("en", "Sample title")
    getProblemLocalizedContent := fun _ _ => ("en", [])
    getProblemSamples := fun _ => []
    getProblemJudgeInfo := fun _ => { payload := "" } }

/-- Controller collaborators where no problem, user or group exists. -/
def c4Env : ProblemControllerEnv :=
  { findProblemById := fun _ => none
    findProblemByDisplayId := fun _ => none
    userHasPermission := fun _ _ _ => true
    findUserById := fun _ => none
    findGroupById := fun _ => none
    updateProblemStatementOk := fun _ _ => true
    getProblemLocalizedTitle := fun _ _ => ("en", "Sample title")
    getProblemLocalizedContent := fun _ _ => ("en", [])
    getProblemSamples := fun _ => []
    getProblemJudgeInfo := fun _ => { payload := "" } }

/-- Controller collaborators where problem 1 exists but the current user
holds no permission at all. -/
def c5Env : ProblemControllerEnv :=
  { findProblemById := fun i => if i = 1 then some sampleProblem else none
    findProblemByDisplayId := fun _ => none
    userHasPermission := fun _ _ _ => false
    findUserById := fun _ => none
    findGroupById := fun _ => none
    updateProblemStatementOk := fun _ _ => true
    getProblemLocalizedTitle := fun _ _ => ("en", "Sample title")
    getProblemLocalizedContent := fun _ _ => ("en", [])
    getProblemSamples := fun _ => []
    getProblemJudgeInfo := fun _ => { payload := "" } }

/-- Controller collaborators where problem 1 exists, reading is allowed, and
the title and content resolvers settle on different locales ("en" for the
title, "ja" for the content). -/
def c7Env : ProblemControllerEnv :=
  { findProblemById := fun i => if i = 1 then some sampleProblem else none
    findProblemByDisplayId := fun _ => none
    userHasPermission := fun _ _ _ => true
    findUserById := fun _ => none
    findGroupById := fun _ => none
    updateProblemStatementOk := fun _ _ => true
    getProblemLocalizedTitle := fun _ _ => ("en", "Sample title")
    getProblemLocalizedContent := fun _ _ =>
      ("ja", [{ sectionTitle := "本文", type := .TEXT, sampleId := none,
                text := some "説明" }])
    getProblemSamples := fun _ => []
    getProblemJudgeInfo := fun _ => { payload := "" } }

/-- A `getProblemDetail` request for problem 1 in a locale ("de") that
neither resolver can serve. -/
def c7Request : GetProblemDetailRequestDto :=
  { id := some 1, displayId := none, locale := "de" }

/-! ## Helper lemmas -/

theorem applyProfileFields_username (user : UserEntity) (username email : Option String)
    (publicEmail : Bool) (information : UserInformation) :
    (applyProfileFields user username email publicEmail information).username =
      username.getD user.username := by
  cases username <;> cases email <;> rfl

theorem applyProfileFields_email (user : UserEntity) (username email : Option String)
    (publicEmail : Bool) (information : UserInformation) :
    (applyProfileFields user username email publicEmail information).email =
      email.getD user.email := by
  cases username <;> cases email <;> rfl

theorem applyProfileFields_info (user : UserEntity) (username email : Option String)
    (publicEmail : Bool) (information : UserInformation) :
    (applyProfileFields user username email publicEmail information).publicEmail = publicEmail ∧
    (applyProfileFields user username email publicEmail information).bio = information.bio ∧
    (applyProfileFields user username email publicEmail information).sexIsFamale =
      information.sexIsFamale ∧
    (applyProfileFields user username email publicEmail information).organization =
      information.organization ∧
    (applyProfileFields user username email publicEmail information).location =
      information.location := by
  cases username <;> cases email <;> exact ⟨rfl, rfl, rfl, rfl, rfl⟩

theorem duplicateDiagnosis_ne_ok (env : UpdateProfileEnv) (username email : Option String) :
    (duplicateDiagnosis env username email).1 ≠ .ok := by
  cases username <;> cases email <;>
    simp only [duplicateDiagnosis] <;>
    (repeat' split) <;> simp_all

theorem duplicateDiagnosis_username_taken (env : UpdateProfileEnv)
    (username email : Option String) (u : String) (hu : username = some u)
    (hav : env.usernameAvailable u = false) :
    (duplicateDiagnosis env username email).1 = .err .DUPLICATE_USERNAME ∧
    (duplicateDiagnosis env username email).2 = [.checkUsernameAvailability u] := by
  subst hu
  cases email <;> simp [duplicateDiagnosis, hav]

theorem duplicateDiagnosis_email_taken (env : UpdateProfileEnv)
    (username email : Option String)
    (hok : ∀ u, username = some u → env.usernameAvailable u = true)
    (e : String) (he : email = some e) (hav : env.emailAvailable e = false) :
    (duplicateDiagnosis env username email).1 = .err .DUPLICATE_EMAIL := by
  subst he
  cases username with
  | none => simp [duplicateDiagnosis, hav]
  | some u => simp [duplicateDiagnosis, hav, hok u rfl]

theorem duplicateDiagnosis_no_conflict (env : UpdateProfileEnv)
    (username email : Option String)
    (hu : ∀ u, username = some u → env.usernameAvailable u = true)
    (he : ∀ e, email = some e → env.emailAvailable e = true) :
    (duplicateDiagnosis env username email).1 = .rethrow := by
  cases username with
  | none =>
    cases email with
    | none => simp [duplicateDiagnosis]
    | some e => simp [duplicateDiagnosis, he e rfl]
  | some u =>
    cases email with
    | none => simp [duplicateDiagnosis, hu u rfl]
    | some e => simp [duplicateDiagnosis, hu u rfl, he e rfl]

theorem duplicateDiagnosis_username_first (env : UpdateProfileEnv)
    (username email : Option String) :
    ∃ t₁ t₂, (duplicateDiagnosis env username email).2 = t₁ ++ t₂ ∧
      (∀ ev ∈ t₁, ∀ e, ev ≠ .checkEmailAvailability e) ∧
      (∀ ev ∈ t₂, ∀ u, ev ≠ .checkUsernameAvailability u) := by
  cases username with
  | none =>
    cases email with
    | none => exact ⟨[], [], rfl, by simp, by simp⟩
    | some e =>
      refine ⟨[], (duplicateDiagnosis env none (some e)).2, rfl, by simp, ?_⟩
      by_cases hav : env.emailAvailable e <;> simp [duplicateDiagnosis, hav]
  | some u =>
    cases email with
    | none =>
      refine ⟨(duplicateDiagnosis env (some u) none).2, [], (List.append_nil _).symm, ?_, by simp⟩
      by_cases hav : env.usernameAvailable u <;> simp [duplicateDiagnosis, hav]
    | some e =>
      by_cases hav : env.usernameAvailable u
      · refine ⟨[.checkUsernameAvailability u], [.checkEmailAvailability e], ?_, by simp, by simp⟩
        by_cases hav2 : env.emailAvailable e <;> simp [duplicateDiagnosis, hav, hav2]
      · exact ⟨[.checkUsernameAvailability u], [], by simp [duplicateDiagnosis, hav], by simp, by simp⟩

/-- On any write failure `updateUserProfile` returns exactly what the
duplicate diagnosis yields, and its trace is the write-attempt events (none
of which is an availability check) followed by the diagnosis events. -/
theorem updateUserProfile_failure_reduces (store : PersistedUserState)
    (env : UpdateProfileEnv) (user : UserEntity) (username email : Option String)
    (publicEmail : Bool) (password : Option String) (information : UserInformation)
    (hfail : match password with
             | none => env.saveOk = false
             | some _ => env.changePasswordOk = false ∨ env.saveOk = false) :
    (updateUserProfile store env user username email publicEmail password information).outcome =
      (duplicateDiagnosis env username email).1 ∧
    ∃ pre,
      (updateUserProfile store env user username email publicEmail password information).trace =
        pre ++ (duplicateDiagnosis env username email).2 ∧
      ∀ ev ∈ pre, (∀ u, ev ≠ .checkUsernameAvailability u) ∧
        (∀ e, ev ≠ .checkEmailAvailability e) := by
  cases password with
  | none =>
    simp only at hfail
    refine ⟨by simp [updateUserProfile, hfail], [.repositorySave], by simp [updateUserProfile, hfail], by simp⟩
  | some pw =>
    simp only at hfail
    have hne : (env.changePasswordOk && env.saveOk) = false := by
      rcases hfail with h | h <;> simp [h]
    by_cases hcp : env.changePasswordOk
    · have hsv : env.saveOk = false := by simpa [hcp] using hne
      exact ⟨by simp [updateUserProfile, hne],
        [.transactionBegin updateProfileIsolationLevel, .changePassword, .transactionalSave],
        by simp [updateUserProfile, hne, hcp, hsv], by simp⟩
    · exact ⟨by simp [updateUserProfile, hne],
        [.transactionBegin updateProfileIsolationLevel, .changePassword],
        by simp [updateUserProfile, hne, hcp], by simp⟩

/-! ## Claim theorems -/

/-- C1: for every call to `updateUserProfile` that fails at the backing
store: if a new username was supplied and the post-hoc availability check
finds it taken, the call returns `DUPLICATE_USERNAME` (and the email
availability is never even queried); otherwise, if a new email was supplied
and found taken, it returns `DUPLICATE_EMAIL`; and if neither re-check finds
a conflict, the original store failure is re-raised unaltered.  The username
check happens before the email check in the trace of collaborator calls. -/
theorem updateUserProfile_failure_diagnosis
    (store : PersistedUserState) (env : UpdateProfileEnv) (user : UserEntity)
    (username email : Option String) (publicEmail : Bool)
    (password : Option String) (information : UserInformation)
    (hfail : match password with
             | none => env.saveOk = false
             | some _ => env.changePasswordOk = false ∨ env.saveOk = false) :
    ((∃ u, username = some u ∧ env.usernameAvailable u = false) →
      (updateUserProfile store env user username email publicEmail password
          information).outcome = .err .DUPLICATE_USERNAME ∧
      ∀ e, UserServiceEvent.checkEmailAvailability e ∉
        (updateUserProfile store env user username email publicEmail password
          information).trace) ∧
    ((∀ u, username = some u → env.usernameAvailable u = true) →
     (∃ e, email = some e ∧ env.emailAvailable e = false) →
      (updateUserProfile store env user username email publicEmail password
          information).outcome = .err .DUPLICATE_EMAIL) ∧
    ((∀ u, username = some u → env.usernameAvailable u = true) →
     (∀ e, email = some e → env.emailAvailable e = true) →
      (updateUserProfile store env user username email publicEmail password
          information).outcome = .rethrow) ∧
    (∃ t₁ t₂,
      (updateUserProfile store env user username email publicEmail password
          information).trace = t₁ ++ t₂ ∧
      (∀ ev ∈ t₁, ∀ e, ev ≠ .checkEmailAvailability e) ∧
      (∀ ev ∈ t₂, ∀ u, ev ≠ .checkUsernameAvailability u)) := by
  obtain ⟨hout, pre, htr, hpre⟩ :=
    updateUserProfile_failure_reduces store env user username email publicEmail
      password information hfail
  refine ⟨?_, ?_, ?_, ?_⟩
  · rintro ⟨u, hu, hav⟩
    obtain ⟨h1, h2⟩ := duplicateDiagnosis_username_taken env username email u hu hav
    refine ⟨by rw [hout, h1], ?_⟩
    intro e hmem
    rw [htr, h2] at hmem
    rcases List.mem_append.1 hmem with h | h
    · exact (hpre _ h).2 e rfl
    · simp at h
  · rintro hok ⟨e, he, hav⟩
    rw [hout]
    exact duplicateDiagnosis_email_taken env username email hok e he hav
  · intro hu he
    rw [hout]
    exact duplicateDiagnosis_no_conflict env username email hu he
  · obtain ⟨t₁, t₂, hdd, h1, h2⟩ := duplicateDiagnosis_username_first env username email
    refine ⟨pre ++ t₁, t₂, by rw [htr, hdd, List.append_assoc], ?_, h2⟩
    intro ev hev
    rcases List.mem_append.1 hev with h | h
    · exact (hpre ev h).2
    · exact h1 ev h

/-- C1 witness: with a failing store write and the attempted username "bob"
taken, the call returns `DUPLICATE_USERNAME`. -/
theorem updateUserProfile_failure_diagnosis_witness :
    (updateUserProfile sampleStore c1Env sampleUser (some "bob")
      (some "bob@example.com") true none sampleInformation).outcome =
      .err .DUPLICATE_USERNAME :=
  ((updateUserProfile_failure_diagnosis sampleStore c1Env sampleUser (some "bob")
      (some "bob@example.com") true none sampleInformation rfl).1
    ⟨"bob", rfl, rfl⟩).1

/-- C2: for every `updateUserProfile` call with a non-null password, the
credential rotation and the profile-field save run as one atomic unit inside
a `READ COMMITTED` transaction: the persisted state either stays exactly what
it was before the call or becomes the fully-updated row together with the new
credential; in particular, if the rotation (`changePassword`) fails, the
persisted username, email and password are unchanged from before the call. -/
theorem updateUserProfile_rotation_atomicity
    (store : PersistedUserState) (env : UpdateProfileEnv) (user : UserEntity)
    (username email : Option String) (publicEmail : Bool) (pw : String)
    (information : UserInformation) :
    UserServiceEvent.transactionBegin "READ COMMITTED" ∈
      (updateUserProfile store env user username email publicEmail (some pw)
        information).trace ∧
    (env.changePasswordOk = false →
      (updateUserProfile store env user username email publicEmail (some pw)
        information).persisted = store) ∧
    ((updateUserProfile store env user username email publicEmail (some pw)
        information).persisted = store ∨
     ((updateUserProfile store env user username email publicEmail (some pw)
        information).outcome = .ok ∧
      (updateUserProfile store env user username email publicEmail (some pw)
        information).persisted =
        { user := applyProfileFields user username email publicEmail information,
          password := pw })) := by
  by_cases hcp : env.changePasswordOk <;> by_cases hsv : env.saveOk <;>
    simp [updateUserProfile, updateProfileIsolationLevel, hcp, hsv]

/-- C2 witness: with a failing credential rotation, the persisted state after
the call is exactly the state before it. -/
theorem updateUserProfile_rotation_atomicity_witness :
    (updateUserProfile sampleStore c2Env sampleUser (some "bob") none true
      (some "new-credential") sampleInformation).persisted = sampleStore :=
  (updateUserProfile_rotation_atomicity sampleStore c2Env sampleUser (some "bob")
    none true "new-credential" sampleInformation).2.1 rfl

/-- C6: for every successful `updateUserProfile` call, the stored username is
replaced exactly when the `username` argument is non-null, the stored email
exactly when the `email` argument is non-null, the stored credential exactly
when the `password` argument is non-null, and the secondary fields bio,
sexIsFamale, organization and location are written unconditionally. -/
theorem updateUserProfile_applies_fields
    (store : PersistedUserState) (env : UpdateProfileEnv) (user : UserEntity)
    (username email : Option String) (publicEmail : Bool)
    (password : Option String) (information : UserInformation)
    (hok : (updateUserProfile store env user username email publicEmail password
      information).outcome = .ok) :
    (updateUserProfile store env user username email publicEmail password
      information).persisted.user.username = username.getD user.username ∧
    (updateUserProfile store env user username email publicEmail password
      information).persisted.user.email = email.getD user.email ∧
    (updateUserProfile store env user username email publicEmail password
      information).persisted.password = password.getD store.password ∧
    (updateUserProfile store env user username email publicEmail password
      information).persisted.user.bio = information.bio ∧
    (updateUserProfile store env user username email publicEmail password
      information).persisted.user.sexIsFamale = information.sexIsFamale ∧
    (updateUserProfile store env user username email publicEmail password
      information).persisted.user.organization = information.organization ∧
    (updateUserProfile store env user username email publicEmail password
      information).persisted.user.location = information.location := by
  obtain ⟨hpe, hbio, hsex, horg, hloc⟩ :=
    applyProfileFields_info user username email publicEmail information
  cases password with
  | none =>
    by_cases hsv : env.saveOk
    · simp [updateUserProfile, hsv, applyProfileFields_username,
        applyProfileFields_email, hbio, hsex, horg, hloc]
    · exfalso
      simp [updateUserProfile, hsv] at hok
      exact duplicateDiagnosis_ne_ok env username email hok
  | some pw =>
    by_cases hboth : env.changePasswordOk && env.saveOk
    · simp [updateUserProfile, hboth, applyProfileFields_username,
        applyProfileFields_email, hbio, hsex, horg, hloc]
    · exfalso
      simp only [Bool.not_eq_true] at hboth
      simp [updateUserProfile, hboth] at hok
      exact duplicateDiagnosis_ne_ok env username email hok

/-- C6 witness: a successful call with a new username and password keeps the
old email and writes the new secondary fields. -/
theorem updateUserProfile_applies_fields_witness :
    (updateUserProfile sampleStore okEnv sampleUser (some "bob") none true
      (some "new-credential") sampleInformation).persisted.user.username = "bob" ∧
    (updateUserProfile sampleStore okEnv sampleUser (some "bob") none true
      (some "new-credential") sampleInformation).persisted.user.email =
        "alice@example.com" ∧
    (updateUserProfile sampleStore okEnv sampleUser (some "bob") none true
      (some "new-credential") sampleInformation).persisted.password =
        "new-credential" ∧
    (updateUserProfile sampleStore okEnv sampleUser (some "bob") none true
      (some "new-credential") sampleInformation).persisted.user.bio = "new bio" :=
  let h := updateUserProfile_applies_fields sampleStore okEnv sampleUser
    (some "bob") none true (some "new-credential") sampleInformation rfl
  ⟨h.1, h.2.1, h.2.2.1, h.2.2.2.1⟩

/-- C8: `updateUserProfile` mutates the passed-in entity before attempting
the store write, so when the call does not succeed (duplicate error or
re-raised store failure) the in-memory entity carries the new field values
even though the persisted state is unchanged. -/
theorem updateUserProfile_mutates_entity
    (store : PersistedUserState) (env : UpdateProfileEnv) (user : UserEntity)
    (username email : Option String) (publicEmail : Bool)
    (password : Option String) (information : UserInformation)
    (hfail : (updateUserProfile store env user username email publicEmail password
      information).outcome ≠ .ok) :
    (updateUserProfile store env user username email publicEmail password
      information).persisted = store ∧
    (updateUserProfile store env user username email publicEmail password
      information).entity =
      applyProfileFields user username email publicEmail information ∧
    (updateUserProfile store env user username email publicEmail password
      information).entity.username = username.getD user.username ∧
    (updateUserProfile store env user username email publicEmail password
      information).entity.email = email.getD user.email ∧
    (updateUserProfile store env user username email publicEmail password
      information).entity.publicEmail = publicEmail ∧
    (updateUserProfile store env user username email publicEmail password
      information).entity.bio = information.bio ∧
    (updateUserProfile store env user username email publicEmail password
      information).entity.sexIsFamale = information.sexIsFamale ∧
    (updateUserProfile store env user username email publicEmail password
      information).entity.organization = information.organization ∧
    (updateUserProfile store env user username email publicEmail password
      information).entity.location = information.location := by
  obtain ⟨hpe, hbio, hsex, horg, hloc⟩ :=
    applyProfileFields_info user username email publicEmail information
  have hent : (updateUserProfile store env user username email publicEmail password
      information).entity =
      applyProfileFields user username email publicEmail information := by
    cases password <;> simp only [updateUserProfile] <;> split <;> rfl
  have hper : (updateUserProfile store env user username email publicEmail password
      information).persisted = store := by
    cases password with
    | none =>
      by_cases hsv : env.saveOk
      · exact absurd (by simp [updateUserProfile, hsv]) hfail
      · simp [updateUserProfile, hsv]
    | some pw =>
      by_cases hboth : env.changePasswordOk && env.saveOk
      · exact absurd (by simp [updateUserProfile, hboth]) hfail
      · simp only [Bool.not_eq_true] at hboth
        simp [updateUserProfile, hboth]
  refine ⟨hper, hent, ?_, ?_, ?_, ?_, ?_, ?_, ?_⟩ <;> rw [hent]
  · exact applyProfileFields_username user username email publicEmail information
  · exact applyProfileFields_email user username email publicEmail information
  · exact hpe
  · exact hbio
  · exact hsex
  · exact horg
  · exact hloc

/-- C8 witness: after a failing call that attempted the taken username "bob",
the persisted state is untouched but the in-memory entity already carries
"bob". -/
theorem updateUserProfile_mutates_entity_witness :
    (updateUserProfile sampleStore c1Env sampleUser (some "bob") none true none
      sampleInformation).persisted = sampleStore ∧
    (updateUserProfile sampleStore c1Env sampleUser (some "bob") none true none
      sampleInformation).entity.username = "bob" :=
  let h := updateUserProfile_mutates_entity sampleStore c1Env sampleUser
    (some "bob") none true none sampleInformation (by decide)
  ⟨h.1, h.2.2.1⟩

/-- C9: `getUserMeta` returns the email exactly when the profile marks it
public, or the requesting user is the same user, or the requesting user holds
the MANAGE_USER privilege; in every other case the email field is null.  The
gravatar hash of the trimmed, lowercased email is included unconditionally. -/
theorem getUserMeta_email_visibility (md5 : String → String)
    (userHasPrivilege : UserEntity → UserPrivilegeType → Bool)
    (user : UserEntity) (currentUser : Option UserEntity) :
    ((getUserMeta md5 userHasPrivilege user currentUser).email = some user.email ↔
      (user.publicEmail = true ∨
       ∃ cu, currentUser = some cu ∧
         (cu.id = user.id ∨ userHasPrivilege cu .MANAGE_USER = true))) ∧
    ((getUserMeta md5 userHasPrivilege user currentUser).email = some user.email ∨
     (getUserMeta md5 userHasPrivilege user currentUser).email = none) ∧
    (getUserMeta md5 userHasPrivilege user currentUser).gravatarEmailHash =
      md5 (user.email.trim.toLower) := by
  cases currentUser with
  | none => by_cases hb : user.publicEmail <;> simp [getUserMeta, hb]
  | some cu =>
    by_cases hb : user.publicEmail <;> by_cases hid : cu.id = user.id <;>
      by_cases hpr : userHasPrivilege cu .MANAGE_USER <;>
      simp [getUserMeta, hb, hid, hpr]

theorem mem_dedupFirst (a : Nat) (l : List Nat) (h : a ∈ l) : a ∈ dedupFirst l := by
  induction l using dedupFirst.induct with
  | case1 => cases h
  | case2 x xs ih =>
    rw [dedupFirst]
    rcases List.mem_cons.1 h with rfl | h'
    · exact List.mem_cons_self _ _
    · by_cases hax : a = x
      · subst hax; exact List.mem_cons_self _ _
      · exact List.mem_cons_of_mem _ (ih (List.mem_filter.2 ⟨h', by simp [hax]⟩))

theorem jsMapGet_filter (db : List UserEntity)
    (hdb : db.Pairwise (fun a b => a.id ≠ b.id)) (p : UserEntity → Bool) (id : Nat)
    (hp : ∀ u, u.id = id → p u = true) :
    jsMapGet (db.filter p) id = db.find? (fun u => u.id == id) := by
  induction db with
  | nil => rfl
  | cons u rest ih =>
    obtain ⟨hu, hrest⟩ := List.pairwise_cons.1 hdb
    by_cases hid : u.id = id
    · have hpu : p u = true := hp u hid
      rw [List.filter_cons_of_pos hpu]
      unfold jsMapGet
      rw [List.reverse_cons, List.find?_append]
      have hnone : (rest.filter p).reverse.find? (fun v => v.id == id) = none := by
        rw [List.find?_eq_none]
        intro v hv
        have hvrest : v ∈ rest := (List.mem_filter.1 (List.mem_reverse.1 hv)).1
        have hne : v.id ≠ u.id := fun hvu => (hu v hvrest) hvu.symm
        simp [hid ▸ hne]
      rw [hnone]
      simp [List.find?, hid]
    · have hfind : (u :: rest).find? (fun v => v.id == id) =
          rest.find? (fun v => v.id == id) := by
        simp [List.find?_cons, hid]
      rw [hfind]
      by_cases hpu : p u
      · rw [List.filter_cons_of_pos hpu]
        unfold jsMapGet
        rw [List.reverse_cons, List.find?_append]
        have hbeq : (u.id == id) = false := by simp [hid]
        have hone : [u].find? (fun v => v.id == id) = none := by
          simp [List.find?, hbeq]
        rw [hone, ← ih hrest]
        unfold jsMapGet
        cases (rest.filter p).reverse.find? (fun v => v.id == id) <;> rfl
      · rw [List.filter_cons_of_neg (by simpa using hpu)]
        exact ih hrest

/-- C10: with pairwise-distinct ids in the store, `findUsersByExistingIds`
returns one entry per input id, in input order with duplicates preserved: the
i-th entry is the stored user with the i-th id when it exists and nothing
otherwise; the empty input yields the empty output. -/
theorem findUsersByExistingIds_spec (db : List UserEntity) (ids : List Nat)
    (hdb : db.Pairwise (fun a b => a.id ≠ b.id)) :
    findUsersByExistingIds db ids =
      ids.map (fun id => db.find? (fun u => u.id == id)) ∧
    (findUsersByExistingIds db ids).length = ids.length ∧
    findUsersByExistingIds db [] = [] := by
  have hmain : findUsersByExistingIds db ids =
      ids.map (fun id => db.find? (fun u => u.id == id)) := by
    by_cases hnil : ids = []
    · subst hnil; rfl
    · unfold findUsersByExistingIds
      rw [if_neg (by simp [hnil])]
      simp only [findByIds]
      apply List.map_congr_left
      intro id hid
      apply jsMapGet_filter db hdb
      intro u hu
      have hmem : id ∈ dedupFirst ids := mem_dedupFirst id ids hid
      simp [hu, hmem]
  exact ⟨hmain, by rw [hmain, List.length_map], rfl⟩

/-- C10 witness: a store with users 1 and 2, queried with the duplicated and
partially-missing id list `[2, 1, 2, 99]`. -/
theorem findUsersByExistingIds_spec_witness :
    findUsersByExistingIds [sampleUser, { sampleUser with id := 2 }] [2, 1, 2, 99] =
      [some { sampleUser with id := 2 }, some sampleUser,
       some { sampleUser with id := 2 }, none] ∧
    (findUsersByExistingIds [sampleUser, { sampleUser with id := 2 }]
      [2, 1, 2, 99]).length = 4 :=
  let h := findUsersByExistingIds_spec [sampleUser, { sampleUser with id := 2 }]
    [2, 1, 2, 99] (by simp [sampleUser])
  ⟨by rw [h.1]; rfl, h.2.1⟩

/-- C5: the controller only ever invokes the persisting
`problemService.setProblemPermissions` when the CONTROL permission check on
the located problem returned true in the same request, and when that check
returns false the request ends with a `PERMISSION_DENIED` response value and
no mutation call appears in the trace. -/
theorem setProblemPermissions_requires_control
    (env : ProblemControllerEnv) (currentUser : Option UserEntity)
    (request : SetProblemPermissionsRequestDto) :
    ((∃ ev ∈ (setProblemPermissions env currentUser request).2,
        ev.isSetProblemPermissions = true) →
      ∃ problem, env.findProblemById request.problemId = some problem ∧
        env.userHasPermission currentUser .CONTROL (some problem) = true) ∧
    (∀ problem, env.findProblemById request.problemId = some problem →
      env.userHasPermission currentUser .CONTROL (some problem) = false →
        (setProblemPermissions env currentUser request).1 =
          { error := some .PERMISSION_DENIED, errorObjectId := none } ∧
        ∀ ev ∈ (setProblemPermissions env currentUser request).2,
          ev.isSetProblemPermissions = false) := by
  cases hfp : env.findProblemById request.problemId with
  | none =>
    constructor
    · rintro ⟨ev, hev, hset⟩
      simp [setProblemPermissions, hfp] at hev
      subst hev
      simp [ProblemControllerEvent.isSetProblemPermissions] at hset
    · intro problem hproblem
      exact Option.noConfusion hproblem
  | some problem =>
    by_cases hperm : env.userHasPermission currentUser .CONTROL (some problem)
    · constructor
      · intro _
        exact ⟨problem, rfl, hperm⟩
      · intro problem2 hproblem2 hfalse
        injection hproblem2 with h
        subst h
        rw [hperm] at hfalse
        exact Bool.noConfusion hfalse
    · have hperm' : env.userHasPermission currentUser .CONTROL (some problem) = false := by
        simpa using hperm
      constructor
      · rintro ⟨ev, hev, hset⟩
        simp [setProblemPermissions, hfp, hperm'] at hev
        rcases hev with hev | hev <;> subst hev <;>
          simp [ProblemControllerEvent.isSetProblemPermissions] at hset
      · intro problem2 hproblem2 _
        injection hproblem2 with h
        subst h
        refine ⟨by simp [setProblemPermissions, hfp, hperm'], ?_⟩
        intro ev hev
        simp [setProblemPermissions, hfp, hperm'] at hev
        rcases hev with hev | hev <;> subst hev <;> rfl

/-- C5 witness: with problem 1 present and a permission oracle that always
denies, the request returns `PERMISSION_DENIED`. -/
theorem setProblemPermissions_requires_control_witness :
    (setProblemPermissions c5Env none
      { problemId := 1, permissionType := .WRITE, userIds := [], groupIds := [] }).1 =
      { error := some .PERMISSION_DENIED, errorObjectId := none } :=
  ((setProblemPermissions_requires_control c5Env none
      { problemId := 1, permissionType := .WRITE, userIds := [], groupIds := [] }).2
    sampleProblem rfl rfl).1

theorem exceptMap_eq_error {ε α β : Type} (f : α → β) (r : Except ε α) (b : ε) :
    r.map f = .error b ↔ r = .error b := by
  cases r <;> simp [Except.map]

theorem lookupEach_error_iff {α : Type} (find : Nat → Option α)
    (mk : Nat → ProblemControllerEvent) (ids : List Nat) (b : Nat) :
    (lookupEach find mk ids).1 = .error b ↔
      ids.find? (fun id => (find id).isNone) = some b := by
  induction ids with
  | nil => simp [lookupEach]
  | cons id rest ih =>
    cases hf : find id with
    | none => simp [lookupEach, hf, List.find?_cons, Option.isNone]
    | some x =>
      simp only [lookupEach, hf]
      rw [exceptMap_eq_error]
      rw [ih]
      simp [List.find?_cons, hf]

theorem lookupEach_ok_no_missing {α : Type} (find : Nat → Option α)
    (mk : Nat → ProblemControllerEvent) (ids : List Nat) (xs : List α)
    (h : (lookupEach find mk ids).1 = .ok xs) :
    ids.find? (fun id => (find id).isNone) = none := by
  cases hfd : ids.find? (fun id => (find id).isNone) with
  | none => rfl
  | some b =>
    rw [← lookupEach_error_iff find mk] at hfd
    rw [h] at hfd
    exact Except.noConfusion hfd

theorem lookupEach_trace_mk {α : Type} (find : Nat → Option α)
    (mk : Nat → ProblemControllerEvent) (ids : List Nat) :
    ∀ ev ∈ (lookupEach find mk ids).2, ∃ id, ev = mk id := by
  induction ids with
  | nil => simp [lookupEach]
  | cons id rest ih =>
    cases hf : find id with
    | none =>
      simp only [lookupEach, hf]
      intro ev hev
      simp at hev
      exact ⟨id, hev⟩
    | some x =>
      simp only [lookupEach, hf]
      intro ev hev
      rcases List.mem_cons.1 hev with rfl | hev'
      · exact ⟨id, rfl⟩
      · exact ih ev hev'

/-- C3: under an existing problem and granted CONTROL, a `setProblemPermissions`
request naming any nonexistent user or group id fails with `NO_SUCH_USER` /
`NO_SUCH_GROUP` carrying the first offending id, and the persisting
`problemService.setProblemPermissions` call never appears in the trace; all
user ids are resolved before any group id. -/
theorem setProblemPermissions_unknown_principal
    (env : ProblemControllerEnv) (currentUser : Option UserEntity)
    (request : SetProblemPermissionsRequestDto) (problem : ProblemEntity)
    (hfind : env.findProblemById request.problemId = some problem)
    (hperm : env.userHasPermission currentUser .CONTROL (some problem) = true) :
    (∀ badId,
      request.userIds.find? (fun id => (env.findUserById id).isNone) = some badId →
      (setProblemPermissions env currentUser request).1 =
        { error := some .NO_SUCH_USER, errorObjectId := some badId }) ∧
    ((∀ id ∈ request.userIds, env.findUserById id ≠ none) →
     ∀ badId,
      request.groupIds.find? (fun id => (env.findGroupById id).isNone) = some badId →
      (setProblemPermissions env currentUser request).1 =
        { error := some .NO_SUCH_GROUP, errorObjectId := some badId }) ∧
    (((∃ id ∈ request.userIds, env.findUserById id = none) ∨
      (∃ id ∈ request.groupIds, env.findGroupById id = none)) →
      ∀ ev ∈ (setProblemPermissions env currentUser request).2,
        ev.isSetProblemPermissions = false) ∧
    (∃ t₁ t₂, (setProblemPermissions env currentUser request).2 = t₁ ++ t₂ ∧
      (∀ ev ∈ t₁, ev.isFindGroupById = false) ∧
      (∀ ev ∈ t₂, ev.isFindUserById = false)) := by
  have hmkU := lookupEach_trace_mk env.findUserById
    ProblemControllerEvent.findUserById request.userIds
  have hmkG := lookupEach_trace_mk env.findGroupById
    ProblemControllerEvent.findGroupById request.groupIds
  cases hru : (lookupEach env.findUserById
      ProblemControllerEvent.findUserById request.userIds).1 with
  | error b =>
    have hfd := (lookupEach_error_iff _ _ _ _).1 hru
    have htr : (setProblemPermissions env currentUser request).2 =
        [ProblemControllerEvent.findProblemById request.problemId,
         ProblemControllerEvent.userHasPermission .CONTROL (some problem)] ++
        (lookupEach env.findUserById
          ProblemControllerEvent.findUserById request.userIds).2 := by
      simp [setProblemPermissions, hfind, hperm, hru]
    have hnone : ∀ ev ∈ (setProblemPermissions env currentUser request).2,
        ev.isSetProblemPermissions = false ∧ ev.isFindGroupById = false := by
      intro ev hev
      rw [htr] at hev
      rcases List.mem_append.1 hev with hev | hev
      · rcases List.mem_cons.1 hev with rfl | hev
        · exact ⟨rfl, rfl⟩
        · rcases List.mem_cons.1 hev with rfl | hev
          · exact ⟨rfl, rfl⟩
          · cases hev
      · obtain ⟨id, rfl⟩ := hmkU ev hev
        exact ⟨rfl, rfl⟩
    refine ⟨?_, ?_, ?_, ?_⟩
    · intro badId h
      rw [hfd] at h
      injection h with h
      subst h
      simp [setProblemPermissions, hfind, hperm, hru]
    · intro husers badId h
      have hmem : b ∈ request.userIds := List.mem_of_find?_eq_some hfd
      have hpred := List.find?_some hfd
      exact absurd (Option.isNone_iff_eq_none.1 hpred) (husers b hmem)
    · intro _ ev hev
      exact (hnone ev hev).1
    · exact ⟨(setProblemPermissions env currentUser request).2, [],
        (List.append_nil _).symm, fun ev hev => (hnone ev hev).2, by simp⟩
  | ok users =>
    have hfdU := lookupEach_ok_no_missing _ _ _ _ hru
    have husersAll : ∀ id ∈ request.userIds, env.findUserById id ≠ none := by
      intro id hid hcontra
      have hall : ∀ x ∈ request.userIds, ¬ ((env.findUserById x).isNone = true) :=
        List.find?_eq_none.1 hfdU
      exact absurd (by simp [hcontra]) (hall id hid)
    cases hrg : (lookupEach env.findGroupById
        ProblemControllerEvent.findGroupById request.groupIds).1 with
    | error b =>
      have hfdG := (lookupEach_error_iff _ _ _ _).1 hrg
      have htr : (setProblemPermissions env currentUser request).2 =
          ([ProblemControllerEvent.findProblemById request.problemId,
            ProblemControllerEvent.userHasPermission .CONTROL (some problem)] ++
           (lookupEach env.findUserById
             ProblemControllerEvent.findUserById request.userIds).2) ++
          (lookupEach env.findGroupById
            ProblemControllerEvent.findGroupById request.groupIds).2 := by
        simp [setProblemPermissions, hfind, hperm, hru, hrg]
      refine ⟨?_, ?_, ?_, ?_⟩
      · intro badId h
        rw [hfdU] at h
        exact Option.noConfusion h
      · intro _ badId h
        rw [hfdG] at h
        injection h with h
        subst h
        simp [setProblemPermissions, hfind, hperm, hru, hrg]
      · intro _ ev hev
        rw [htr] at hev
        rcases List.mem_append.1 hev with hev | hev
        · rcases List.mem_append.1 hev with hev | hev
          · rcases List.mem_cons.1 hev with rfl | hev
            · rfl
            · rcases List.mem_cons.1 hev with rfl | hev
              · rfl
              · cases hev
          · obtain ⟨id, rfl⟩ := hmkU ev hev
            rfl
        · obtain ⟨id, rfl⟩ := hmkG ev hev
          rfl
      · refine ⟨[ProblemControllerEvent.findProblemById request.problemId,
            ProblemControllerEvent.userHasPermission .CONTROL (some problem)] ++
            (lookupEach env.findUserById
              ProblemControllerEvent.findUserById request.userIds).2,
          (lookupEach env.findGroupById
            ProblemControllerEvent.findGroupById request.groupIds).2,
          htr, ?_, ?_⟩
        · intro ev hev
          rcases List.mem_append.1 hev with hev | hev
          · rcases List.mem_cons.1 hev with rfl | hev
            · rfl
            · rcases List.mem_cons.1 hev with rfl | hev
              · rfl
              · cases hev
          · obtain ⟨id, rfl⟩ := hmkU ev hev
            rfl
        · intro ev hev
          obtain ⟨id, rfl⟩ := hmkG ev hev
          rfl
    | ok groups =>
      have hfdG := lookupEach_ok_no_missing _ _ _ _ hrg
      have hgroupsAll : ∀ id ∈ request.groupIds, env.findGroupById id ≠ none := by
        intro id hid hcontra
        have hsome : request.groupIds.find? (fun i => (env.findGroupById i).isNone) ≠ none := by
          cases hq : request.groupIds.find? (fun i => (env.findGroupById i).isNone) with
          | none =>
            have : ∀ x ∈ request.groupIds, ¬ ((env.findGroupById x).isNone = true) :=
              List.find?_eq_none.1 hq
            exact absurd (by simp [hcontra]) (this id hid)
          | some x => simp
        exact hsome hfdG
      have htr : (setProblemPermissions env currentUser request).2 =
          ([ProblemControllerEvent.findProblemById request.problemId,
            ProblemControllerEvent.userHasPermission .CONTROL (some problem)] ++
           (lookupEach env.findUserById
             ProblemControllerEvent.findUserById request.userIds).2) ++
          ((lookupEach env.findGroupById
             ProblemControllerEvent.findGroupById request.groupIds).2 ++
           [ProblemControllerEvent.setProblemPermissions problem
             request.permissionType users groups]) := by
        simp [setProblemPermissions, hfind, hperm, hru, hrg]
      refine ⟨?_, ?_, ?_, ?_⟩
      · intro badId h
        rw [hfdU] at h
        exact Option.noConfusion h
      · intro _ badId h
        rw [hfdG] at h
        exact Option.noConfusion h
      · intro hmissing
        exfalso
        rcases hmissing with ⟨id, hid, hcontra⟩ | ⟨id, hid, hcontra⟩
        · exact husersAll id hid hcontra
        · exact hgroupsAll id hid hcontra
      · refine ⟨[ProblemControllerEvent.findProblemById request.problemId,
            ProblemControllerEvent.userHasPermission .CONTROL (some problem)] ++
            (lookupEach env.findUserById
              ProblemControllerEvent.findUserById request.userIds).2,
          (lookupEach env.findGroupById
            ProblemControllerEvent.findGroupById request.groupIds).2 ++
          [ProblemControllerEvent.setProblemPermissions problem
            request.permissionType users groups],
          htr, ?_, ?_⟩
        · intro ev hev
          rcases List.mem_append.1 hev with hev | hev
          · rcases List.mem_cons.1 hev with rfl | hev
            · rfl
            · rcases List.mem_cons.1 hev with rfl | hev
              · rfl
              · cases hev
          · obtain ⟨id, rfl⟩ := hmkU ev hev
            rfl
        · intro ev hev
          rcases List.mem_append.1 hev with hev | hev
          · obtain ⟨id, rfl⟩ := hmkG ev hev
            rfl
          · rcases List.mem_cons.1 hev with rfl | hev
            · rfl
            · cases hev

/-- C3 witness: with user 2 missing from the directory, a request naming
users `[1, 2, 3]` fails with `NO_SUCH_USER` and offending id 2. -/
theorem setProblemPermissions_unknown_principal_witness :
    (setProblemPermissions c3Env none
      { problemId := 1, permissionType := .READ,
        userIds := [1, 2, 3], groupIds := [5] }).1 =
      { error := some .NO_SUCH_USER, errorObjectId := some 2 } :=
  (setProblemPermissions_unknown_principal c3Env none
      { problemId := 1, permissionType := .READ,
        userIds := [1, 2, 3], groupIds := [5] }
      sampleProblem rfl rfl).1 2 rfl

/-- C4: in each of `updateStatement`, `getProblemDetail` and
`setProblemPermissions`, a nonexistent problem yields `NO_SUCH_PROBLEM` with
no permission check at all, and every `userHasPermission` call these
operations ever issue carries a present (non-absent) problem argument and a
non-CREATE level. -/
theorem controller_resource_existence_first
    (env : ProblemControllerEnv) (currentUser : Option UserEntity)
    (ru : UpdateProblemStatementRequestDto) (rg : GetProblemDetailRequestDto)
    (rs : SetProblemPermissionsRequestDto) :
    (env.findProblemById ru.problemId = none →
      (updateStatement env currentUser ru).1.error = some .NO_SUCH_PROBLEM ∧
      ∀ ev ∈ (updateStatement env currentUser ru).2, ∀ lvl prob,
        ev ≠ .userHasPermission lvl prob) ∧
    (∀ ev ∈ (updateStatement env currentUser ru).2, ∀ lvl prob,
      ev = .userHasPermission lvl prob → lvl ≠ .CREATE ∧ prob.isSome = true) ∧
    ((∀ i, rg.id = some i → env.findProblemById i = none) →
     (∀ d, rg.displayId = some d → env.findProblemByDisplayId d = none) →
      (getProblemDetail env currentUser rg).1.error = some .NO_SUCH_PROBLEM ∧
      ∀ ev ∈ (getProblemDetail env currentUser rg).2, ∀ lvl prob,
        ev ≠ .userHasPermission lvl prob) ∧
    (∀ ev ∈ (getProblemDetail env currentUser rg).2, ∀ lvl prob,
      ev = .userHasPermission lvl prob → lvl ≠ .CREATE ∧ prob.isSome = true) ∧
    (env.findProblemById rs.problemId = none →
      (setProblemPermissions env currentUser rs).1.error = some .NO_SUCH_PROBLEM ∧
      ∀ ev ∈ (setProblemPermissions env currentUser rs).2, ∀ lvl prob,
        ev ≠ .userHasPermission lvl prob) ∧
    (∀ ev ∈ (setProblemPermissions env currentUser rs).2, ∀ lvl prob,
      ev = .userHasPermission lvl prob → lvl ≠ .CREATE ∧ prob.isSome = true) := by
  refine ⟨?_, ?_, ?_, ?_, ?_, ?_⟩
  · intro hfp
    refine ⟨by simp [updateStatement, hfp], ?_⟩
    intro ev hev lvl prob
    simp [updateStatement, hfp] at hev
    subst hev
    intro h
    exact ProblemControllerEvent.noConfusion h
  · intro ev hev lvl prob hperm
    cases hfp : env.findProblemById ru.problemId with
    | none =>
      simp [updateStatement, hfp] at hev
      subst hev
      exact ProblemControllerEvent.noConfusion hperm
    | some p =>
      by_cases hw : env.userHasPermission currentUser .WRITE (some p)
      · by_cases hok2 : env.updateProblemStatementOk p ru <;>
          simp [updateStatement, hfp, hw, hok2] at hev <;>
        rcases hev with hev | hev | hev <;> subst hev <;>
          first
          | exact ProblemControllerEvent.noConfusion hperm
          | (injection hperm with h1 h2
             subst h1
             subst h2
             exact ⟨by simp, rfl⟩)
      · have hw' : env.userHasPermission currentUser .WRITE (some p) = false := by
          simpa using hw
        simp [updateStatement, hfp, hw'] at hev
        rcases hev with hev | hev <;> subst hev <;>
          first
          | exact ProblemControllerEvent.noConfusion hperm
          | (injection hperm with h1 h2
             subst h1
             subst h2
             exact ⟨by simp, rfl⟩)
  · intro hid hdid
    cases hrgid : rg.id with
    | some i =>
      have hf := hid i hrgid
      refine ⟨by simp [getProblemDetail, hrgid, hf, getProblemDetailError], ?_⟩
      intro ev hev lvl prob
      simp [getProblemDetail, hrgid, hf] at hev
      subst hev
      intro h
      exact ProblemControllerEvent.noConfusion h
    | none =>
      cases hrgdid : rg.displayId with
      | some d =>
        have hf := hdid d hrgdid
        refine ⟨by simp [getProblemDetail, hrgid, hrgdid, hf, getProblemDetailError], ?_⟩
        intro ev hev lvl prob
        simp [getProblemDetail, hrgid, hrgdid, hf] at hev
        subst hev
        intro h
        exact ProblemControllerEvent.noConfusion h
      | none =>
        refine ⟨by simp [getProblemDetail, hrgid, hrgdid, getProblemDetailError], ?_⟩
        intro ev hev lvl prob
        simp [getProblemDetail, hrgid, hrgdid] at hev
  · intro ev hev lvl prob hperm
    cases hrgid : rg.id with
    | some i =>
      cases hf : env.findProblemById i with
      | none =>
        simp [getProblemDetail, hrgid, hf] at hev
        subst hev
        exact ProblemControllerEvent.noConfusion hperm
      | some p =>
        by_cases hr : env.userHasPermission currentUser .READ (some p)
        · simp [getProblemDetail, hrgid, hf, hr] at hev
          rcases hev with hev | hev | hev | hev | hev | hev <;> subst hev <;>
            first
            | exact ProblemControllerEvent.noConfusion hperm
            | (injection hperm with h1 h2
               subst h1
               subst h2
               exact ⟨by simp, rfl⟩)
        · have hr' : env.userHasPermission currentUser .READ (some p) = false := by
            simpa using hr
          simp [getProblemDetail, hrgid, hf, hr'] at hev
          rcases hev with hev | hev <;> subst hev <;>
            first
            | exact ProblemControllerEvent.noConfusion hperm
            | (injection hperm with h1 h2
               subst h1
               subst h2
               exact ⟨by simp, rfl⟩)
    | none =>
      cases hrgdid : rg.displayId with
      | none =>
        simp [getProblemDetail, hrgid, hrgdid] at hev
      | some d =>
        cases hf : env.findProblemByDisplayId d with
        | none =>
          simp [getProblemDetail, hrgid, hrgdid, hf] at hev
          subst hev
          exact ProblemControllerEvent.noConfusion hperm
        | some p =>
          by_cases hr : env.userHasPermission currentUser .READ (some p)
          · simp [getProblemDetail, hrgid, hrgdid, hf, hr] at hev
            rcases hev with hev | hev | hev | hev | hev | hev <;> subst hev <;>
              first
              | exact ProblemControllerEvent.noConfusion hperm
              | (injection hperm with h1 h2
                 subst h1
                 subst h2
                 exact ⟨by simp, rfl⟩)
          · have hr' : env.userHasPermission currentUser .READ (some p) = false := by
              simpa using hr
            simp [getProblemDetail, hrgid, hrgdid, hf, hr'] at hev
            rcases hev with hev | hev <;> subst hev <;>
              first
              | exact ProblemControllerEvent.noConfusion hperm
              | (injection hperm with h1 h2
                 subst h1
                 subst h2
                 exact ⟨by simp, rfl⟩)
  · intro hfp
    refine ⟨by simp [setProblemPermissions, hfp], ?_⟩
    intro ev hev lvl prob
    simp [setProblemPermissions, hfp] at hev
    subst hev
    intro h
    exact ProblemControllerEvent.noConfusion h
  · intro ev hev lvl prob hperm
    have hmkU := lookupEach_trace_mk env.findUserById
      ProblemControllerEvent.findUserById rs.userIds
    have hmkG := lookupEach_trace_mk env.findGroupById
      ProblemControllerEvent.findGroupById rs.groupIds
    cases hfp : env.findProblemById rs.problemId with
    | none =>
      simp [setProblemPermissions, hfp] at hev
      subst hev
      exact ProblemControllerEvent.noConfusion hperm
    | some p =>
      by_cases hc : env.userHasPermission currentUser .CONTROL (some p)
      · cases hru : (lookupEach env.findUserById
            ProblemControllerEvent.findUserById rs.userIds).1 with
        | error b =>
          simp [setProblemPermissions, hfp, hc, hru] at hev
          rcases hev with hev | hev | hev
          · subst hev; exact ProblemControllerEvent.noConfusion hperm
          · subst hev
            injection hperm with h1 h2
            subst h1
            subst h2
            exact ⟨by simp, rfl⟩
          · obtain ⟨id, rfl⟩ := hmkU ev hev
            exact ProblemControllerEvent.noConfusion hperm
        | ok users =>
          cases hrg : (lookupEach env.findGroupById
              ProblemControllerEvent.findGroupById rs.groupIds).1 with
          | error b =>
            simp [setProblemPermissions, hfp, hc, hru, hrg] at hev
            rcases hev with hev | hev | hev | hev
            · subst hev; exact ProblemControllerEvent.noConfusion hperm
            · subst hev
              injection hperm with h1 h2
              subst h1
              subst h2
              exact ⟨by simp, rfl⟩
            · obtain ⟨id, rfl⟩ := hmkU ev hev
              exact ProblemControllerEvent.noConfusion hperm
            · obtain ⟨id, rfl⟩ := hmkG ev hev
              exact ProblemControllerEvent.noConfusion hperm
          | ok groups =>
            simp [setProblemPermissions, hfp, hc, hru, hrg] at hev
            rcases hev with hev | hev | hev | hev | hev
            · subst hev; exact ProblemControllerEvent.noConfusion hperm
            · subst hev
              injection hperm with h1 h2
              subst h1
              subst h2
              exact ⟨by simp, rfl⟩
            · obtain ⟨id, rfl⟩ := hmkU ev hev
              exact ProblemControllerEvent.noConfusion hperm
            · obtain ⟨id, rfl⟩ := hmkG ev hev
              exact ProblemControllerEvent.noConfusion hperm
            · subst hev; exact ProblemControllerEvent.noConfusion hperm
      · have hc' : env.userHasPermission currentUser .CONTROL (some p) = false := by
          simpa using hc
        simp [setProblemPermissions, hfp, hc'] at hev
        rcases hev with hev | hev <;> subst hev <;>
          first
          | exact ProblemControllerEvent.noConfusion hperm
          | (injection hperm with h1 h2
             subst h1
             subst h2
             exact ⟨by simp, rfl⟩)

/-- C4 witness: with an empty problem store, all three operations answer
`NO_SUCH_PROBLEM`. -/
theorem controller_resource_existence_first_witness :
    (updateStatement c4Env none { problemId := 7, statementPayload := "s" }).1.error =
      some .NO_SUCH_PROBLEM ∧
    (getProblemDetail c4Env none
      { id := some 7, displayId := none, locale := "en" }).1.error =
      some .NO_SUCH_PROBLEM ∧
    (setProblemPermissions c4Env none
      { problemId := 7, permissionType := .READ, userIds := [],
        groupIds := [] }).1.error = some .NO_SUCH_PROBLEM :=
  let h := controller_resource_existence_first c4Env none
    { problemId := 7, statementPayload := "s" }
    { id := some 7, displayId := none, locale := "en" }
    { problemId := 7, permissionType := .READ, userIds := [], groupIds := [] }
  ⟨(h.1 rfl).1,
   (h.2.2.1 (fun _ _ => rfl) (fun _ _ => rfl)).1,
   (h.2.2.2.2.1 rfl).1⟩

/-- C7: the controller resolves the title and the content by two separate
service calls with the same requested locale and returns separate
`titleLocale` / `contentLocale` values, which can differ (here "en" vs "ja");
the declared `GetProblemDetailResponseDto`, however, carries a single
`resultLocale` field and declares neither `titleLocale` nor `contentLocale`,
contradicting the controller's returned object. -/
theorem getProblemDetail_locale_fields :
    (getProblemDetail c7Env none c7Request).1.titleLocale = some "en" ∧
    (getProblemDetail c7Env none c7Request).1.contentLocale = some "ja" ∧
    ProblemControllerEvent.getProblemLocalizedTitle 1 "de" ∈
      (getProblemDetail c7Env none c7Request).2 ∧
    ProblemControllerEvent.getProblemLocalizedContent 1 "de" ∈
      (getProblemDetail c7Env none c7Request).2 ∧
    (ResponseFieldName.titleLocale ∈ getProblemDetailControllerReturnFields ∧
     ResponseFieldName.contentLocale ∈ getProblemDetailControllerReturnFields) ∧
    (ResponseFieldName.titleLocale ∉ getProblemDetailResponseDtoFields ∧
     ResponseFieldName.contentLocale ∉ getProblemDetailResponseDtoFields ∧
     ResponseFieldName.resultLocale ∈ getProblemDetailResponseDtoFields) := by
  refine ⟨rfl, rfl, ?_, ?_, by decide, by decide⟩
  · simp [getProblemDetail, c7Env, c7Request, sampleProblem]
  · simp [getProblemDetail, c7Env, c7Request, sampleProblem]
